import Mathlib

/-!
Verification of the aisap AppImage handling code: a shallow embedding of
the format detection, offset resolution, mount lifecycle, and permission
mutation routines, together with theorems settling the specified
properties.  Files are modelled as lists of byte values (`List Nat`,
each entry below 256 in well formed inputs); fallible Go functions
return `Except GoErr` values; Go panics are modelled by `Option`
(`none`) or by a dedicated result constructor.
-/

namespace aisap

/-! Byte level utilities. -/

/-- Bytes of an ASCII string constant, as the Go source compares raw bytes. -/
def strBytes (s : String) : List Nat := s.toList.map Char.toNat

/-- The sub-list of `n` bytes starting at `off`; shorter when the file ends
early, mirroring what a bounded read can return. -/
def slice (bs : List Nat) (off n : Nat) : List Nat := (bs.drop off).take n

/-- Little endian byte decoding, as `encoding/binary.LittleEndian` does. -/
def decodeLE : List Nat → Nat
  | [] => 0
  | b :: rest => b + 256 * decodeLE rest

/-- Big endian byte decoding, as `encoding/binary.BigEndian` does. -/
def decodeBE (l : List Nat) : Nat := decodeLE l.reverse

/-- Little endian encoding of `v` into `w` bytes. -/
def encodeLE : Nat → Nat → List Nat
  | 0, _ => []
  | w + 1, v => v % 256 :: encodeLE w (v / 256)

/-- Big endian encoding of `v` into `w` bytes. -/
def encodeBE (w v : Nat) : List Nat := (encodeLE w v).reverse

/-- Error vocabulary of the embedded Go code (`errors.New` values, the
`debug/elf` header validation errors, and the spec level names). -/
inductive GoErr where
  | invalidType
  | missingAI02
  | unsupportedAppImage
  | truncatedIdent
  | badMagic
  | unknownClass
  | unknownData
  | badVersion
  | truncatedHeader
  | offsetNotFound
  | atoiFailed
  | mountFailed
  | invalidLevel
  | entryMissing
  | mismatchedVersion
  | invalidShoff
  | invalidPhoff
  | invalidShnum
  | invalidShstrndx
  | invalidPhentsize
  | invalidShentsize
  | truncatedProg
  | invalidProgOffset
  | invalidProgSize
  | truncatedSection
  | invalidSectOffset
  | invalidSectSize
  | invalidInitialSection
  | invalidExtendedShnum
  | invalidStrtabType
  | compressedStrtab
  | badSectionName
  deriving DecidableEq

/-! Format detection, from `GetAppImageType` in helpers/offset.go. -/

def elfMagicB : List Nat := [0x7f, 0x45, 0x4c, 0x46]

def type1MarkB : List Nat := [65, 73, 1]

def type2MarkB : List Nat := [65, 73, 2]

def shimgMagicB : List Nat := strBytes "#!/bin/sh\n#.shImg.#"

/-- `HasMagic` from helpers/offset.go: seek to `off`, `io.ReadFull` of
`m.length` bytes (failing, hence `false`, when the file is too short),
then byte for byte comparison. -/
def HasMagic (bs m : List Nat) (off : Nat) : Bool :=
  slice bs off m.length == m

/-- `GetAppImageType` from helpers/offset.go.  The Go function returns an
int code: `1` type 1, `2` type 2, `0` unknown but valid ELF, `-2`
shappimage (shell script), and an error otherwise. -/
def GetAppImageType (bs : List Nat) : Except GoErr Int :=
  if HasMagic bs elfMagicB 0 then
    if HasMagic bs type1MarkB 8 then .ok 1
    else if HasMagic bs type2MarkB 8 then .ok 2
    else .ok 0
  else if HasMagic bs shimgMagicB 0 then .ok (-2)
  else .error .invalidType

/-! Shell script (shappimage) offset scan, from `getShappImageSize` in
helpers/offset.go. -/

/-- `strings.Split` on a one byte separator: `n` separators yield `n + 1`
chunks. -/
def splitOnB (sep : Nat) : List Nat → List (List Nat)
  | [] => [[]]
  | b :: rest =>
    let r := splitOnB sep rest
    if b = sep then [] :: r
    else
      match r with
      | [] => [[b]]
      | c :: cs => (b :: c) :: cs

/-- The two `strings.ReplaceAll` calls removing every single quote
(byte 39) and double quote (byte 34) character. -/
def stripQuotesB (l : List Nat) : List Nat :=
  l.filter (fun b => b ≠ 39 && b ≠ 34)

def isDigitB (b : Nat) : Bool := 48 ≤ b && b ≤ 57

def digitsToNat (ds : List Nat) : Nat :=
  ds.foldl (fun a b => a * 10 + (b - 48)) 0

/-- `strconv.Atoi`: optional sign, then a nonempty run of decimal digits
only, rejecting values outside the 64 bit int range.  `none` models a
non-nil error return. -/
def goAtoi (l : List Nat) : Option Int :=
  let core : List Nat → Bool → Option Int := fun ds neg =>
    if ds.isEmpty || !(ds.all isDigitB) then none
    else
      let v : Nat := digitsToNat ds
      if neg then (if v ≤ 2 ^ 63 then some (-(v : Int)) else none)
      else (if v < 2 ^ 63 then some (v : Int) else none)
  match l with
  | 43 :: rest => core rest false
  | 45 :: rest => core rest true
  | _ => core l false

def sfsKeyB : List Nat := strBytes "sfs_offset="

/-- The line test of `getShappImageSize`: length above 10, the first 11
bytes spell `sfs_offset=`, and exactly one `=` (byte 61) in the line. -/
def shappMatch (t : List Nat) : Bool :=
  decide (10 < t.length) && (t.take 11 == sfsKeyB)
    && decide ((splitOnB 61 t).length = 2)

/-- Value handling of a matching line: second chunk of the `=` split,
quotes removed, `strconv.Atoi`; a parse failure is returned as the
(non-nil) error of `getShappImageSize`. -/
def shappParse (t : List Nat) : Except GoErr Int :=
  match goAtoi (stripQuotesB ((splitOnB 61 t).getD 1 [])) with
  | some v => .ok v
  | none => .error .atoiFailed

/-- `getShappImageSize` from helpers/offset.go, over the scanned lines:
the first matching line decides the result; an exhausted scan is the
`unable to find shappimage offset` error. -/
def getShappImageSize : List (List Nat) → Except GoErr Int
  | [] => .error .offsetNotFound
  | t :: rest => if shappMatch t then shappParse t else getShappImageSize rest

/-- `bufio.ScanLines` drops one trailing carriage return per line. -/
def dropCR (l : List Nat) : List Nat :=
  if l.getLast? = some 13 then l.dropLast else l

/-- Line splitting of `bufio.Scanner` with `ScanLines`: split on newline
(byte 10); a trailing newline produces no final empty token. -/
def toLines (bs : List Nat) : List (List Nat) :=
  let ls := splitOnB 10 bs
  (if ls.getLast? = some [] then ls.dropLast else ls).map dropCR

/-! ELF offset computation, from `getElfSize` in helpers/offset.go. -/

/-- The `e_ident` prefix validation of `debug/elf.NewFile`: 16 ident
bytes must be readable, the magic must match, the class byte (index 4)
must be 1 or 2, the data byte (index 5) must be 1 (little endian) or 2
(big endian), and the version byte (index 6) must be 1.  Returns the
class byte and whether the declared byte order is big endian.  The rest
of the `NewFile` validation (full header read, version field match,
table field checks, eager program and section header parsing) is
modelled by `newFileRest` below. -/
def elfIdentCheck (bs : List Nat) : Except GoErr (Nat × Bool) :=
  if bs.length < 16 then .error .truncatedIdent
  else if slice bs 0 4 ≠ elfMagicB then .error .badMagic
  else
    let cls := bs.getD 4 0
    if cls ≠ 1 ∧ cls ≠ 2 then .error .unknownClass
    else
      let dat := bs.getD 5 0
      if dat ≠ 1 ∧ dat ≠ 2 then .error .unknownData
      else if bs.getD 6 0 ≠ 1 then .error .badVersion
      else .ok (cls, dat == 2)

/-- The Go conversion `int(u)` from `uint64`: two's complement
reinterpretation into the signed 64 bit range. -/
def toInt64 (u : Nat) : Int :=
  if u < 2 ^ 63 then (u : Int) else (u : Int) - 2 ^ 64

/-- Go 64 bit signed integer addition wraps around. -/
def wrap64 (z : Int) : Int := (z + 2 ^ 63) % 2 ^ 64 - 2 ^ 63

/-- Field read with the byte order declared by the ident data byte. -/
def readField (be : Bool) (bs : List Nat) (off n : Nat) : Nat :=
  if be then decodeBE (slice bs off n) else decodeLE (slice bs off n)

/-- Error propagation of the Go `if err != nil return` pattern, for a
unit valued stage. -/
def exU (x : Except GoErr Unit) (k : Unit → Except GoErr Unit) : Except GoErr Unit :=
  match x with
  | .error e => .error e
  | .ok u => k u

/-- Error propagation for a stage yielding a resolved `(shnum, shstrndx)`. -/
def exP (x : Except GoErr (Nat × Nat)) (k : Nat → Nat → Except GoErr Unit) :
    Except GoErr Unit :=
  match x with
  | .error e => .error e
  | .ok p => k p.1 p.2

/-- Error propagation from the ident validation into the header read. -/
def exIdent (x : Except GoErr (Nat × Bool)) (k : Nat → Bool → Except GoErr Int) :
    Except GoErr Int :=
  match x with
  | .error e => .error e
  | .ok p => k p.1 p.2

/-- Error propagation from the `NewFile` validation into the size
computation. -/
def exI (x : Except GoErr Unit) (k : Unit → Except GoErr Int) : Except GoErr Int :=
  match x with
  | .error e => .error e
  | .ok u => k u

/-- Run a per index check for indices `0` up to `n - 1` in increasing
order, returning the first error, as the `NewFile` read loops do. -/
def firstErr (f : Nat → Except GoErr Unit) : Nat → Except GoErr Unit
  | 0 => .ok ()
  | n + 1 =>
    match firstErr f n with
    | .error e => .error e
    | .ok _ => f n

/-- One iteration of the `NewFile` program header loop: read a `Prog64`
(56 bytes: offset field at byte 8, file size at 32) or `Prog32`
(32 bytes, whose 32 bit fields can never be negative as int64) at `off`,
erroring on a short read or on an offset or file size that is negative
after the Go int64 conversion. -/
def progEntryOk (be is64 : Bool) (bs : List Nat) (off : Nat) : Except GoErr Unit :=
  if is64 then
    if bs.length < off + 56 then .error .truncatedProg
    else if 2 ^ 63 ≤ readField be bs (off + 8) 8 then .error .invalidProgOffset
    else if 2 ^ 63 ≤ readField be bs (off + 32) 8 then .error .invalidProgSize
    else .ok ()
  else
    if bs.length < off + 32 then .error .truncatedProg else .ok ()

/-- One iteration of the `NewFile` section header loop: read a
`Section64` (64 bytes: flags at byte 8, offset at 24, size at 32) or
`Section32` (40 bytes: flags at 8, offset at 16, size at 20) at `off`,
erroring on a short read or a negative offset or size after the int64
conversion; when the `SHF_COMPRESSED` flag (bit 11) is set, `NewFile`
additionally reads a compression header (`Chdr64` 24 bytes, `Chdr32`
12 bytes) from the start of the section data, erroring when the section
or the file is too short for it. -/
def sectEntryOk (be is64 : Bool) (bs : List Nat) (off : Nat) : Except GoErr Unit :=
  if is64 then
    if bs.length < off + 64 then .error .truncatedSection
    else if 2 ^ 63 ≤ readField be bs (off + 24) 8 then .error .invalidSectOffset
    else if 2 ^ 63 ≤ readField be bs (off + 32) 8 then .error .invalidSectSize
    else if readField be bs (off + 8) 8 / 2 ^ 11 % 2 = 1 then
      if readField be bs (off + 32) 8 < 24 ∨
          bs.length < readField be bs (off + 24) 8 + 24 then
        .error .truncatedSection
      else .ok ()
    else .ok ()
  else
    if bs.length < off + 40 then .error .truncatedSection
    else if readField be bs (off + 8) 4 / 2 ^ 11 % 2 = 1 then
      if readField be bs (off + 20) 4 < 12 ∨
          bs.length < readField be bs (off + 16) 4 + 12 then
        .error .truncatedSection
      else .ok ()
    else .ok ()

/-- The extended section count encoding of `NewFile`: when `shoff` is
positive and the declared `shnum` is zero, the real count is the size
field of the initial section header at `shoff`, whose type must be
`SHT_NULL` and whose size must be at least `SHN_LORESERVE` (0xff00) and
fit a nonnegative int; when `shstrndx` is `SHN_XINDEX` (0xffff) the
real string table index is that header link field, which must be at
least 0xff00.  Returns the resolved `(shnum, shstrndx)`. -/
def extShnum (be is64 : Bool) (bs : List Nat) (shoff shstrndx : Nat) :
    Except GoErr (Nat × Nat) :=
  if bs.length < shoff + (if is64 then 64 else 40) then .error .truncatedSection
  else
    let typ := readField be bs (shoff + 4) 4
    let sz := if is64 then readField be bs (shoff + 32) 8 else readField be bs (shoff + 20) 4
    let link := readField be bs (shoff + (if is64 then 40 else 24)) 4
    if typ ≠ 0 then .error .invalidInitialSection
    else if 2 ^ 63 ≤ sz ∨ sz < 0xff00 then .error .invalidExtendedShnum
    else if shstrndx = 0xffff then
      if link < 0xff00 then .error .invalidShstrndx else .ok (sz, link)
    else .ok (sz, shstrndx)

/-- The final `NewFile` stage: when `shstrndx` is zero the file has no
section name string table and `NewFile` returns at once; otherwise the
section header at that index must have type `SHT_STRTAB` (3), its data
must be readable in full, and every section name index must point at a
NUL terminated string inside it.  A compressed name table (flag bit 11)
is conservatively rejected here: `NewFile` would inflate it, which is
not modelled; no theorem below depends on that case. -/
def strtabCheck (be is64 : Bool) (bs : List Nat)
    (shoff shentsize shnum shstrndx : Nat) : Except GoErr Unit :=
  if shstrndx = 0 then .ok ()
  else
    let soff := shoff + shstrndx * shentsize
    if readField be bs (soff + 4) 4 ≠ 3 then .error .invalidStrtabType
    else
      let strOff := if is64 then readField be bs (soff + 24) 8
        else readField be bs (soff + 16) 4
      let strSize := if is64 then readField be bs (soff + 32) 8
        else readField be bs (soff + 20) 4
      if readField be bs (soff + 8) (if is64 then 8 else 4) / 2 ^ 11 % 2 = 1 then
        .error .compressedStrtab
      else if bs.length < strOff + strSize then .error .truncatedSection
      else
        let strtab := slice bs strOff strSize
        if (List.range shnum).all (fun i =>
            decide (readField be bs (shoff + i * shentsize) 4 < strtab.length) &&
              (strtab.drop (readField be bs (shoff + i * shentsize) 4)).contains 0)
        then .ok () else .error .badSectionName

/-- The validation `debug/elf.NewFile` performs after the ident bytes,
for a file of the given class and byte order: read the full header
(64 bytes for class 2, 52 for class 1), check the 4 byte version field
at offset 20 against the ident version, decode the table fields
(class 2: phoff at 32, shoff at 40, phentsize at 54, phnum at 56,
shentsize at 58, shnum at 60, shstrndx at 62; class 1: phoff at 28,
shoff at 32, then 42, 44, 46, 48, 50), reject a negative shoff or phoff
(int64 view), a nonzero shnum with zero shoff, a shstrndx at or past a
positive shnum, and a phentsize below the `Prog` size (56 or 32) when
phnum is positive; then read every program header, resolve the extended
shnum encoding, reject a shentsize below the `Section` size (64 or 40)
when the resolved shnum is positive, read every section header, and run
the section name string table stage. -/
def newFileRest (bs : List Nat) (cls : Nat) (be : Bool) : Except GoErr Unit :=
  if bs.length < (if cls = 2 then 64 else 52) then .error .truncatedHeader
  else if readField be bs 20 4 ≠ 1 then .error .mismatchedVersion
  else
    let phoff := if cls = 2 then readField be bs 32 8 else readField be bs 28 4
    let shoff := if cls = 2 then readField be bs 40 8 else readField be bs 32 4
    let phentsize := if cls = 2 then readField be bs 54 2 else readField be bs 42 2
    let phnum := if cls = 2 then readField be bs 56 2 else readField be bs 44 2
    let shentsize := if cls = 2 then readField be bs 58 2 else readField be bs 46 2
    let shnum := if cls = 2 then readField be bs 60 2 else readField be bs 48 2
    let shstrndx := if cls = 2 then readField be bs 62 2 else readField be bs 50 2
    if 2 ^ 63 ≤ shoff then .error .invalidShoff
    else if 2 ^ 63 ≤ phoff then .error .invalidPhoff
    else if shoff = 0 ∧ shnum ≠ 0 then .error .invalidShnum
    else if 0 < shnum ∧ shnum ≤ shstrndx then .error .invalidShstrndx
    else if 0 < phnum ∧ phentsize < (if cls = 2 then 56 else 32) then
      .error .invalidPhentsize
    else
      exU (firstErr (fun i => progEntryOk be (cls == 2) bs (phoff + i * phentsize)) phnum)
        (fun _ =>
          exP (if 0 < shoff ∧ shnum = 0 then extShnum be (cls == 2) bs shoff shstrndx
               else .ok (shnum, shstrndx))
            (fun shnum2 shstrndx2 =>
              if 0 < shnum2 ∧ shentsize < (if cls = 2 then 64 else 40) then
                .error .invalidShentsize
              else
                exU (firstErr (fun i => sectEntryOk be (cls == 2) bs (shoff + i * shentsize))
                      shnum2)
                  (fun _ => strtabCheck be (cls == 2) bs shoff shentsize shnum2 shstrndx2)))

/-- `getElfSize` from helpers/offset.go.  `elf.NewFile` is modelled as
`elfIdentCheck` followed by `newFileRest`; when it succeeds the function
re-reads the raw header with the declared byte order: for class 2
(64 bit) the section header table offset is the 8 bytes at 40, entry
size the 2 bytes at 58, count the 2 bytes at 60; for class 1 (32 bit)
the offset is the 4 bytes at 32, entry size at 46, count at 48; the
result is `shoff + shentsize * shnum` in Go int arithmetic.  The final
`.ok 0` mirrors the `default: return 0, nil` branch of the Go switch,
which is unreachable because `elf.NewFile` admits only classes 1 and 2. -/
def getElfSize (bs : List Nat) : Except GoErr Int :=
  exIdent (elfIdentCheck bs) (fun cls be =>
    exI (newFileRest bs cls be) (fun _ =>
      if cls = 2 then
        if bs.length < 64 then .error .truncatedHeader
        else
          let shoff := readField be bs 40 8
          let shentsize := readField be bs 58 2
          let shnum := readField be bs 60 2
          .ok (wrap64 (toInt64 shoff + ((shentsize : Int) * (shnum : Int))))
      else if cls = 1 then
        if bs.length < 52 then .error .truncatedHeader
        else
          let shoff := readField be bs 32 4
          let shentsize := readField be bs 46 2
          let shnum := readField be bs 48 2
          .ok (wrap64 ((shoff : Int) + ((shentsize : Int) * (shnum : Int))))
      else .ok 0))

/-- `GetOffset` from helpers/offset.go: detect the format, then dispatch.
Format `-2` scans the lines, `2` computes from the ELF header, `0`
(valid ELF without the AppImage marker) and every other format are
errors. -/
def GetOffset (bs : List Nat) : Except GoErr Int :=
  match GetAppImageType bs with
  | .error e => .error e
  | .ok fmt =>
    if fmt = -2 then getShappImageSize (toLines bs)
    else if fmt = 2 then getElfSize bs
    else if fmt = 0 then .error .missingAI02
    else .error .unsupportedAppImage

/-! Construction of well formed 64 bit type 2 ELF headers, used to state
the offset formula property. -/

/-- Byte order dependent encoder. -/
def encB (bo : Bool) (w v : Nat) : List Nat :=
  if bo then encodeBE w v else encodeLE w v

/-- The first 20 header bytes of a type 2 AppImage: the 16 `e_ident`
bytes (ELF magic, class 2, the declared byte order, version 1, then the
`AI` marker and version byte 2 in the padding area inspected by
`GetAppImageType`) followed by zero `e_type` and `e_machine`. -/
def elfIdent20 (bo : Bool) : List Nat :=
  [0x7f, 0x45, 0x4c, 0x46, 2, if bo then 2 else 1, 1, 0, 65, 73, 2, 0, 0, 0, 0, 0,
   0, 0, 0, 0]

/-- A well formed 64 bit type 2 container file in the chosen byte order:
the 64 byte header holds the ident block, the `e_version` field 1 at
offset 20 (matching the ident version as `NewFile` demands), zero
`e_entry` and `e_phoff` (bytes 24 to 39), the section header table
offset `O` at 40, zero `e_flags`, `e_ehsize`, `e_phentsize` and
`e_phnum` (bytes 48 to 57), entry size `S` at 58, count `N` at 60 and
zero `e_shstrndx`; the bytes from the header end to offset `O` are zero
padding and the `N` zeroed section entries of `S` bytes each lie at `O`
(one zero block of `O - 64 + S * N` bytes), with arbitrary payload
after. -/
def mkElf64 (bo : Bool) (O S N : Nat) (rest : List Nat) : List Nat :=
  elfIdent20 bo ++ (encB bo 4 1 ++ (List.replicate 16 0 ++ (encB bo 8 O ++
    (List.replicate 10 0 ++ (encB bo 2 S ++ (encB bo 2 N ++ ([0, 0] ++
      (List.replicate (O - 64 + S * N) 0 ++ rest))))))))

/-! The container open sequence, from `NewAppImage` in the aisap
package.  The collaborators reached through the filesystem are supplied
as an environment: the run identifier produced by `helpers.RandString`,
whether the second `helpers.MakeTemp` succeeds, what `helpers.GetOffset`
returns for the source file, whether `Mount` succeeds, and the sorted
`.desktop` matches that `filepath.Glob` finds in the mounted image. -/

deriving instance DecidableEq for Except

structure OpenEnv where
  runId : String
  mkMountOk : Bool
  offsetRes : Except GoErr Int
  mountOk : Bool
  desktopFiles : List String
  deriving DecidableEq

structure AppImageRec where
  tempDir : String
  mountDir : String
  offset : Int
  desktopFile : String
  deriving DecidableEq

inductive OpenResult where
  | opened (ai : AppImageRec)
  | failed (e : GoErr)
  | panicked
  deriving DecidableEq

/-- `NewAppImage` from the aisap package, tracking which scratch
directories exist when control returns.  Mirrors the source line by
line: the temp directory is created first, then the mount directory
(whose `MakeTemp` error is discarded by the source), then offset
resolution, `Mount`, and the `.desktop` glob; `fp[0]` on an empty glob
result is an out of range panic.  No error path removes any directory. -/
def NewAppImage (env : OpenEnv) : OpenResult × List String :=
  let tempDir := "/tmp/.aisapTemp_" ++ env.runId
  let created0 := [tempDir]
  let mountDir := if env.mkMountOk then tempDir ++ "/.mount_" ++ env.runId else ""
  let created := if env.mkMountOk then created0 ++ [mountDir] else created0
  match env.offsetRes with
  | .error e => (.failed e, created)
  | .ok off =>
    if env.mountOk = false then (.failed .mountFailed, created)
    else
      match env.desktopFiles with
      | [] => (.panicked, created)
      | f :: _ => (.opened ⟨tempDir, mountDir, off, f⟩, created)

/-! Package level mutable state of the aisap package (the `var` block:
`usern`, `homed`, `uid`, `dataDir`, `rootDir`, `tempDir`), shared by
every AppImage value in the process. -/

structure Globals where
  usern : String
  homed : String
  uid : String
  dataDir : String
  rootDir : String
  tempDir : String
  deriving DecidableEq

/-- Initial values of the `var` block: `rootDir = "/"`, `tempDir = "/tmp"`,
the rest zero valued. -/
def g0 : Globals :=
  { usern := "", homed := "", uid := "", dataDir := "", rootDir := "/", tempDir := "/tmp" }

/-- The relevant fields of `os/user.User` plus the numeric result of
`os.Getuid()`: facts about the real invoking account.  `homeDir` is the
real home directory; the source never reads it. -/
structure RealUser where
  username : String
  homeDir : String
  uid : Nat
  deriving DecidableEq

/-- `filepath.Join("/home", u)` for a slash free component. -/
def joinHome (u : String) : String :=
  if u = "" then "/home" else "/home/" ++ u

/-- `updateHome` from the aisap package: levels 0 and 1 take the real
username, levels 2 and 3 the fixed name `ai`, anything else errors
before any assignment; on success `homed` is joined under `/home` and
`uid` is the printed real uid. -/
def updateHome (l : Int) (ru : RealUser) (g : Globals) : Except GoErr Globals :=
  if l = 1 ∨ l = 0 then
    .ok { g with usern := ru.username, homed := joinHome ru.username,
                 uid := toString ru.uid }
  else if 1 < l ∧ l ≤ 3 then
    .ok { g with usern := "ai", homed := joinHome "ai",
                 uid := toString ru.uid }
  else .error .invalidLevel

/-- `SetLevel` from the aisap package: run `updateHome`; on its error
return the error leaving globals and the stored level untouched,
otherwise store the new level. -/
def SetLevel (l : Int) (ru : RealUser) (g : Globals) (level : Int) :
    Option GoErr × (Globals × Int) :=
  match updateHome l ru g with
  | .error e => (some e, (g, level))
  | .ok g2 => (none, (g2, l))

/-- `SetRootDir` from the aisap package: the receiver is ignored and the
package global is overwritten. -/
def SetRootDir (_ai : AppImageRec) (d : String) (g : Globals) : Globals :=
  { g with rootDir := d }

/-- `SetTempDir` from the aisap package, same shape. -/
def SetTempDir (_ai : AppImageRec) (d : String) (g : Globals) : Globals :=
  { g with tempDir := d }

/-- `SetDataDir` from the aisap package, same shape. -/
def SetDataDir (_ai : AppImageRec) (d : String) (g : Globals) : Globals :=
  { g with dataDir := d }

/-- What any AppImage value observes as the root directory override: the
shared package global. -/
def rootDirOf (_ai : AppImageRec) (g : Globals) : String := g.rootDir

def aiA : AppImageRec :=
  { tempDir := "/tmp/.aisapTemp_a", mountDir := "/tmp/.aisapTemp_a/.mount_a",
    offset := 100, desktopFile := "a.desktop" }

def aiB : AppImageRec :=
  { tempDir := "/tmp/.aisapTemp_b", mountDir := "/tmp/.aisapTemp_b/.mount_b",
    offset := 200, desktopFile := "b.desktop" }

/-! File grant mutation, from `AddFiles` in the aisap package. -/

/-- Per entry body of the `AddFiles` loop, applied after the suffix
slice succeeded: append `:ro` unless the entry has fewer than two `=`
free colon chunks or already carries a `:ro` or `:rw` suffix. -/
def addFileSuffix (e : List Nat) : List Nat :=
  let ex := e.drop (e.length - 3)
  if (splitOnB 58 e).length < 2 ∨ (ex ≠ strBytes ":ro" ∧ ex ≠ strBytes ":rw") then
    e ++ strBytes ":ro"
  else e

/-- The `AddFiles` loop: the suffix slice `s[i][len(s[i])-3:]` panics
(`none`) on any entry shorter than 3 bytes; otherwise every entry is
rewritten by `addFileSuffix`. -/
def addFilesLoop : List (List Nat) → Option (List (List Nat))
  | [] => some []
  | e :: rest =>
    if e.length < 3 then none
    else (addFilesLoop rest).map (addFileSuffix e :: ·)

/-- `AddFiles` from the aisap package: rewrite the argument entries, then
append them to the existing file grant list in order, without
deduplication. -/
def AddFiles (files : List (List Nat)) (s : List (List Nat)) :
    Option (List (List Nat)) :=
  (addFilesLoop s).map (files ++ ·)

/-! Shared helper lemmas. -/

theorem slice_length (bs : List Nat) (off n : Nat) :
    (slice bs off n).length = min n (bs.length - off) := by
  simp [slice]

theorem slice_append_ge (A B : List Nat) (off n : Nat) (h : A.length ≤ off) :
    slice (A ++ B) off n = slice B (off - A.length) n := by
  unfold slice
  rw [List.drop_append_eq_append_drop, List.drop_eq_nil_of_le h, List.nil_append]

theorem slice_zero_of_length (A B : List Nat) (n : Nat) (h : A.length = n) :
    slice (A ++ B) 0 n = A := by
  unfold slice
  rw [List.drop_zero, ← h, List.take_left]

theorem encodeLE_length (w v : Nat) : (encodeLE w v).length = w := by
  induction w generalizing v with
  | zero => rfl
  | succ w ih => simp [encodeLE, ih]

theorem encB_length (bo : Bool) (w v : Nat) : (encB bo w v).length = w := by
  cases bo <;> simp [encB, encodeBE, encodeLE_length]

theorem decodeLE_encodeLE (w v : Nat) (h : v < 256 ^ w) :
    decodeLE (encodeLE w v) = v := by
  induction w generalizing v with
  | zero =>
    simp [encodeLE, decodeLE]
    omega
  | succ w ih =>
    have hdiv : v / 256 < 256 ^ w := by
      rw [Nat.div_lt_iff_lt_mul (by norm_num)]
      calc v < 256 ^ (w + 1) := h
        _ = 256 ^ w * 256 := by rw [pow_succ]
    simp only [encodeLE, decodeLE, ih (v / 256) hdiv]
    omega

theorem decodeBE_encodeBE (w v : Nat) (h : v < 256 ^ w) :
    decodeBE (encodeBE w v) = v := by
  rw [decodeBE, encodeBE, List.reverse_reverse]
  exact decodeLE_encodeLE w v h

/-! Detection case lemmas (shared by several claim theorems). -/

theorem hasMagic_of_slice (bs m : List Nat) (off : Nat) (h : slice bs off m.length = m) :
    HasMagic bs m off = true := by
  simp [HasMagic, h]

theorem hasMagic_ne_of_slice (bs m : List Nat) (off : Nat) (h : slice bs off m.length ≠ m) :
    HasMagic bs m off = false := by
  simp [HasMagic, h]

theorem detect_type1 (bs : List Nat) (h1 : slice bs 0 4 = elfMagicB)
    (h2 : slice bs 8 3 = type1MarkB) : GetAppImageType bs = .ok 1 := by
  unfold GetAppImageType
  rw [hasMagic_of_slice bs elfMagicB 0 h1, hasMagic_of_slice bs type1MarkB 8 h2]
  rfl

theorem detect_type2 (bs : List Nat) (h1 : slice bs 0 4 = elfMagicB)
    (h2 : slice bs 8 3 = type2MarkB) : GetAppImageType bs = .ok 2 := by
  unfold GetAppImageType
  rw [hasMagic_of_slice bs elfMagicB 0 h1,
    hasMagic_ne_of_slice bs type1MarkB 8 (by show slice bs 8 3 ≠ type1MarkB; rw [h2]; decide),
    hasMagic_of_slice bs type2MarkB 8 h2]
  rfl

theorem detect_unknown (bs : List Nat) (h1 : slice bs 0 4 = elfMagicB)
    (h2 : slice bs 8 3 ≠ type1MarkB) (h3 : slice bs 8 3 ≠ type2MarkB) :
    GetAppImageType bs = .ok 0 := by
  unfold GetAppImageType
  rw [hasMagic_of_slice bs elfMagicB 0 h1,
    hasMagic_ne_of_slice bs type1MarkB 8 h2,
    hasMagic_ne_of_slice bs type2MarkB 8 h3]
  rfl

theorem detect_shimg (bs : List Nat) (h : slice bs 0 19 = shimgMagicB) :
    GetAppImageType bs = .ok (-2) := by
  have h4 : slice bs 0 4 = shimgMagicB.take 4 := by
    unfold slice at h ⊢
    rw [List.drop_zero] at h ⊢
    rw [← h, List.take_take]
    norm_num
  unfold GetAppImageType
  rw [hasMagic_ne_of_slice bs elfMagicB 0
      (by show slice bs 0 4 ≠ elfMagicB; rw [h4]; decide),
    hasMagic_of_slice bs shimgMagicB 0 h]
  rfl

theorem detect_invalid (bs : List Nat) (h1 : slice bs 0 4 ≠ elfMagicB)
    (h2 : slice bs 0 19 ≠ shimgMagicB) : GetAppImageType bs = .error .invalidType := by
  unfold GetAppImageType
  rw [hasMagic_ne_of_slice bs elfMagicB 0 h1,
    hasMagic_ne_of_slice bs shimgMagicB 0 h2]
  rfl

theorem short_slice_ne (bs : List Nat) (m : List Nat) (off : Nat)
    (hlen : bs.length < off + m.length) (hm : m.length ≠ 0) :
    slice bs off m.length ≠ m := by
  intro h
  have := slice_length bs off m.length
  rw [h] at this
  omega

theorem getElfSize_badClass (bs : List Nat) (hlen : 16 ≤ bs.length)
    (hm : slice bs 0 4 = elfMagicB) (h1 : bs.getD 4 0 ≠ 1) (h2 : bs.getD 4 0 ≠ 2) :
    getElfSize bs = .error .unknownClass := by
  unfold getElfSize elfIdentCheck
  rw [if_neg (by omega)]
  rw [if_neg (by simp [hm])]
  rw [if_pos ⟨h1, h2⟩]
  rfl

/-- C4 (amended): the detection outcomes of `GetAppImageType`, which is a
total function on byte strings (hence never crashes): ELF magic with the
`AI` marker and version byte 1 at bytes 8 to 10 is type 1 (`.ok 1`), with
version byte 2 type 2 (`.ok 2`); ELF magic with any other bytes there,
including a file too short to carry them, is the unknown-but-valid-ELF
outcome (`.ok 0`), not an invalid-format error; the 19 byte shell script
marker is the shappimage outcome (`.ok (-2)`); everything else is the
invalid-format error. -/
theorem GetAppImageType_cases (bs : List Nat) :
    (slice bs 0 4 = elfMagicB → slice bs 8 3 = type1MarkB →
      GetAppImageType bs = .ok 1) ∧
    (slice bs 0 4 = elfMagicB → slice bs 8 3 = type2MarkB →
      GetAppImageType bs = .ok 2) ∧
    (slice bs 0 4 = elfMagicB → slice bs 8 3 ≠ type1MarkB → slice bs 8 3 ≠ type2MarkB →
      GetAppImageType bs = .ok 0) ∧
    (slice bs 0 4 = elfMagicB → bs.length < 11 → GetAppImageType bs = .ok 0) ∧
    (slice bs 0 19 = shimgMagicB → GetAppImageType bs = .ok (-2)) ∧
    (slice bs 0 4 ≠ elfMagicB → slice bs 0 19 ≠ shimgMagicB →
      GetAppImageType bs = .error .invalidType) := by
  refine ⟨detect_type1 bs, detect_type2 bs, detect_unknown bs, ?_, detect_shimg bs,
    detect_invalid bs⟩
  intro h1 hshort
  exact detect_unknown bs h1
    (short_slice_ne bs type1MarkB 8 (by simpa using hshort) (by decide))
    (short_slice_ne bs type2MarkB 8 (by simpa using hshort) (by decide))

/-- C4 witness: the amended theorem applied to a concrete 19 byte shell
script marker file. -/
theorem GetAppImageType_cases_witness :
    GetAppImageType shimgMagicB = .ok (-2) :=
  (GetAppImageType_cases shimgMagicB).2.2.2.2.1 (by decide)

/-- C4 counterexample: a 4 byte file holding exactly the ELF magic is
shorter than the 19 byte probe window, yet detection returns the
unknown-ELF outcome (`.ok 0`), not the invalid-format error the claim
requires for every input shorter than the probe window. -/
theorem GetAppImageType_short_counterexample :
    GetAppImageType [0x7f, 0x45, 0x4c, 0x46] = .ok 0 ∧
    ([0x7f, 0x45, 0x4c, 0x46] : List Nat).length < 19 ∧
    (Except.ok 0 ≠ (Except.error GoErr.invalidType : Except GoErr Int)) := by
  decide

/-- C2 (amended): `GetOffset` routes only the type 2 format through the
section header computation: a detected type 1 file yields the
`unsupported AppImage type` error and a valid ELF without the AppImage
marker yields the `missing AI magic` error, neither parsing the ELF
header; and for a type 2 file whose ELF class byte is neither 1 (32 bit)
nor 2 (64 bit), the `debug/elf` header validation inside `getElfSize`
rejects the file with an unknown-ELF-class error, so resolution errors
out rather than silently returning offset 0. -/
theorem GetOffset_elf_dispatch :
    (∀ bs : List Nat, slice bs 0 4 = elfMagicB → slice bs 8 3 = type1MarkB →
      GetOffset bs = .error .unsupportedAppImage) ∧
    (∀ bs : List Nat, slice bs 0 4 = elfMagicB → slice bs 8 3 ≠ type1MarkB →
      slice bs 8 3 ≠ type2MarkB → GetOffset bs = .error .missingAI02) ∧
    (∀ bs : List Nat, 16 ≤ bs.length → slice bs 0 4 = elfMagicB →
      slice bs 8 3 = type2MarkB → bs.getD 4 0 ≠ 1 → bs.getD 4 0 ≠ 2 →
      GetOffset bs = .error .unknownClass) := by
  refine ⟨?_, ?_, ?_⟩
  · intro bs h1 h2
    unfold GetOffset
    rw [detect_type1 bs h1 h2]
    rfl
  · intro bs h1 h2 h3
    unfold GetOffset
    rw [detect_unknown bs h1 h2 h3]
    rfl
  · intro bs hlen h1 h2 h3 h4
    unfold GetOffset
    rw [detect_type2 bs h1 h2]
    show getElfSize bs = _
    exact getElfSize_badClass bs hlen h1 h3 h4

/-- C2 witness: the amended theorem applied to a concrete 16 byte type 2
marked file whose class byte is 3. -/
theorem GetOffset_elf_dispatch_witness :
    GetOffset [0x7f, 0x45, 0x4c, 0x46, 3, 1, 1, 0, 65, 73, 2, 0, 0, 0, 0, 0] =
      .error .unknownClass :=
  GetOffset_elf_dispatch.2.2 _ (by decide) (by decide) (by decide) (by decide) (by decide)

/-- C2 counterexample: a detected type 1 ELF file is not resolved through
the section header computation; `GetOffset` returns the
`unsupported AppImage type` error, refuting the claim that every
detected ELF kind succeeds via the section header computation. -/
theorem GetOffset_type1_counterexample :
    GetAppImageType [0x7f, 0x45, 0x4c, 0x46, 2, 1, 1, 0, 65, 73, 1, 0, 0, 0, 0, 0] =
      .ok 1 ∧
    GetOffset [0x7f, 0x45, 0x4c, 0x46, 2, 1, 1, 0, 65, 73, 1, 0, 0, 0, 0, 0] =
      .error .unsupportedAppImage := by
  decide

/-- C3 (amended): the shell script scan examines lines in order with no
bound on the number of lines: the first line that is longer than 10
bytes, starts with the literal `sfs_offset=`, and contains exactly one
`=` byte decides the result; its value after the `=` has every single
and double quote character removed and is parsed by `strconv.Atoi` as a
signed decimal integer only, so a surrounding-quoted decimal such as
`sfs_offset=` followed by a quoted `4096` yields `4096`; and when no
line matches, the result is the offset-not-found error. -/
theorem getShappImageSize_fixed :
    (∀ (pre : List (List Nat)) (t : List Nat) (post : List (List Nat)),
      (∀ x ∈ pre, shappMatch x = false) →
      shappMatch t = true →
      getShappImageSize (pre ++ t :: post) = shappParse t) ∧
    (∀ ls : List (List Nat), (∀ x ∈ ls, shappMatch x = false) →
      getShappImageSize ls = .error .offsetNotFound) ∧
    getShappImageSize [sfsKeyB ++ [39] ++ strBytes "4096" ++ [39]] = .ok 4096 := by
  refine ⟨?_, ?_, by decide⟩
  · intro pre t post hpre ht
    induction pre with
    | nil => simp [getShappImageSize, ht]
    | cons a as ih =>
      have ha : shappMatch a = false := hpre a (by simp)
      have has : ∀ x ∈ as, shappMatch x = false := fun x hx => hpre x (by simp [hx])
      simpa [getShappImageSize, ha] using ih has
  · intro ls hls
    induction ls with
    | nil => rfl
    | cons a as ih =>
      have ha : shappMatch a = false := hls a (by simp)
      have has : ∀ x ∈ as, shappMatch x = false := fun x hx => hls x (by simp [hx])
      simpa [getShappImageSize, ha] using ih has

/-- C3 witness: the amended theorem applied to a concrete two line file,
a non matching first line followed by a matching one. -/
theorem getShappImageSize_fixed_witness :
    getShappImageSize [strBytes "#!/bin/sh", sfsKeyB ++ strBytes "4096"] = .ok 4096 :=
  (getShappImageSize_fixed.1 [strBytes "#!/bin/sh"] (sfsKeyB ++ strBytes "4096") []
    (by decide) (by decide)).trans (by decide)

set_option maxRecDepth 4000 in
/-- C3 counterexample: the scan is not bounded to the first 512 lines (a
matching line at position 521 is still found and parsed, where the claim
requires the offset-not-found error), and a 0x prefixed hexadecimal
value is not accepted (the claim requires `sfs_offset=0x1000` to parse;
the code fails with an Atoi error); a line with a second `=` byte is
skipped rather than treated as the first match. -/
theorem getShappImageSize_counterexample :
    getShappImageSize (List.replicate 520 [] ++ [sfsKeyB ++ strBytes "9"]) = .ok 9 ∧
    getShappImageSize [sfsKeyB ++ strBytes "0x1000"] = .error .atoiFailed ∧
    (Except.error GoErr.atoiFailed ≠ (Except.ok 4096 : Except GoErr Int)) ∧
    getShappImageSize [sfsKeyB ++ strBytes "1=2", sfsKeyB ++ strBytes "7"] = .ok 7 := by
  decide

/-- C5: evaluation of `NewAppImage` on its failure paths after both
scratch directories were created.  When offset resolution fails, and
likewise when the mount collaborator fails, the error is returned while
both created directories are still present (the returned directory list
is exactly the two of them, in particular not empty), so partial scratch
state survives the error return, contrary to the claim. -/
theorem NewAppImage_no_cleanup_on_failure :
    NewAppImage ⟨"r1", true, .error .offsetNotFound, true, []⟩ =
      (.failed .offsetNotFound, ["/tmp/.aisapTemp_r1", "/tmp/.aisapTemp_r1/.mount_r1"]) ∧
    NewAppImage ⟨"r1", true, .ok 4096, false, []⟩ =
      (.failed .mountFailed, ["/tmp/.aisapTemp_r1", "/tmp/.aisapTemp_r1/.mount_r1"]) ∧
    (["/tmp/.aisapTemp_r1", "/tmp/.aisapTemp_r1/.mount_r1"] : List String) ≠ [] := by
  decide

/-- C6: evaluation of `NewAppImage` when offset resolution and mount
succeed but the mounted root contains zero `.desktop` files: the
`fp[0]` index on the empty glob result is an out of range panic, not the
entry-missing error return required by the claim. -/
theorem NewAppImage_zero_desktop_panics :
    NewAppImage ⟨"r2", true, .ok 4096, true, []⟩ =
      (.panicked, ["/tmp/.aisapTemp_r2", "/tmp/.aisapTemp_r2/.mount_r2"]) ∧
    OpenResult.panicked ≠ OpenResult.failed GoErr.entryMissing := by
  decide

/-- C9: evaluation of the root directory override on two distinct open
AppImage values: `SetRootDir` invoked through the first writes the
package level global, so the second observes the new value, contrary to
the claim that per instance state is unaffected by other instances. -/
theorem SetRootDir_shared_global :
    rootDirOf aiB (SetRootDir aiA "/fake" g0) = "/fake" ∧
    rootDirOf aiB g0 = "/" ∧
    rootDirOf aiB (SetTempDir aiA "/faketmp" g0) = "/" ∧
    (SetTempDir aiA "/faketmp" g0).tempDir = "/faketmp" ∧
    g0.tempDir = "/tmp" ∧
    aiA ≠ aiB := by
  decide

/-- C7 (amended): `SetLevel` succeeds exactly for levels 0 to 3 and
otherwise fails leaving the globals and the stored level unchanged; on
success, levels 0 and 1 resolve the username to the real account name
with home `/home/` followed by that name (the real home directory
itself is never consulted), levels 2 and 3 resolve to the fixed
synthetic name `ai` with home `/home/ai`, and the stored uid is the
printed real numeric uid at every successful level. -/
theorem SetLevel_spec (l : Int) (ru : RealUser) (g : Globals) (lev : Int) :
    ((SetLevel l ru g lev).1 = none ↔ 0 ≤ l ∧ l ≤ 3) ∧
    (¬(0 ≤ l ∧ l ≤ 3) → SetLevel l ru g lev = (some .invalidLevel, (g, lev))) ∧
    ((l = 0 ∨ l = 1) →
      (SetLevel l ru g lev).2.1.usern = ru.username ∧
      (SetLevel l ru g lev).2.1.homed = joinHome ru.username ∧
      (SetLevel l ru g lev).2.1.uid = toString ru.uid ∧
      (SetLevel l ru g lev).2.2 = l) ∧
    ((l = 2 ∨ l = 3) →
      (SetLevel l ru g lev).2.1.usern = "ai" ∧
      (SetLevel l ru g lev).2.1.homed = "/home/ai" ∧
      (SetLevel l ru g lev).2.1.uid = toString ru.uid ∧
      (SetLevel l ru g lev).2.2 = l) := by
  have hai : joinHome "ai" = "/home/ai" := by decide
  unfold SetLevel updateHome
  by_cases h1 : l = 1 ∨ l = 0
  · rw [if_pos h1]
    refine ⟨by simp; omega, fun hc => absurd (by omega) hc, fun _ => by simp, ?_⟩
    rintro (rfl | rfl) <;> omega
  · rw [if_neg h1]
    by_cases h2 : 1 < l ∧ l ≤ 3
    · rw [if_pos h2]
      refine ⟨by simp; omega, fun hc => absurd (by omega) hc, ?_, fun _ => by simp [hai]⟩
      rintro (rfl | rfl) <;> omega
    · rw [if_neg h2]
      refine ⟨by simp; omega, fun _ => rfl, ?_, ?_⟩
      · rintro (rfl | rfl) <;> [exact absurd (Or.inr rfl) h1; exact absurd (Or.inl rfl) h1]
      · rintro (rfl | rfl) <;> exact absurd (by omega) h2

/-- C7 witness: the amended theorem applied at level 2 for a concrete
real account. -/
theorem SetLevel_spec_witness :
    (SetLevel 2 ⟨"root", "/root", 0⟩ g0 1).2.1.homed = "/home/ai" ∧
    (SetLevel 2 ⟨"root", "/root", 0⟩ g0 1).2.1.uid = "0" ∧
    (SetLevel 2 ⟨"root", "/root", 0⟩ g0 1).2.2 = 2 := by
  have h := (SetLevel_spec 2 ⟨"root", "/root", 0⟩ g0 1).2.2.2 (Or.inl rfl)
  exact ⟨h.2.1, h.2.2.1.trans (by decide), h.2.2.2⟩

/-- C7 counterexample: for the real account `root` whose home is
`/root`, a successful `SetLevel 0` resolves the home path to
`/home/root`, which differs from the real home, refuting the claim that
levels 0 and 1 resolve to the real account home. -/
theorem SetLevel_home_counterexample :
    (SetLevel 0 ⟨"root", "/root", 0⟩ g0 1).1 = none ∧
    (SetLevel 0 ⟨"root", "/root", 0⟩ g0 1).2.1.homed = "/home/root" ∧
    (RealUser.mk "root" "/root" 0).homeDir = "/root" ∧
    ("/home/root" : String) ≠ "/root" := by
  decide

theorem splitOnB_ne_nil (sep : Nat) (l : List Nat) : splitOnB sep l ≠ [] := by
  cases l with
  | nil => simp [splitOnB]
  | cons b rest =>
    simp only [splitOnB]
    split
    · simp
    · split <;> simp

theorem splitOnB_length (sep : Nat) (l : List Nat) :
    (splitOnB sep l).length = l.count sep + 1 := by
  induction l with
  | nil => rfl
  | cons b rest ih =>
    simp only [splitOnB, List.count_cons]
    by_cases hb : b = sep
    · subst hb
      simp [ih]
    · rw [if_neg hb]
      have hne := splitOnB_ne_nil sep rest
      cases hr : splitOnB sep rest with
      | nil => exact absurd hr hne
      | cons c cs =>
        rw [hr] at ih
        simp only [List.length_cons] at ih ⊢
        have : (b == sep) = false := by simp [hb]
        simp [this, ih]

theorem colon_chunks_ge_two (e : List Nat) (h : 58 ∈ e) :
    ¬ (splitOnB 58 e).length < 2 := by
  have := splitOnB_length 58 e
  have hc : 0 < e.count 58 := List.count_pos_iff.mpr h
  omega

theorem addFilesLoop_all (s : List (List Nat)) (h : ∀ e ∈ s, 3 ≤ e.length) :
    addFilesLoop s = some (s.map addFileSuffix) := by
  induction s with
  | nil => rfl
  | cons e rest ih =>
    have he : 3 ≤ e.length := h e (by simp)
    have hrest : ∀ x ∈ rest, 3 ≤ x.length := fun x hx => h x (by simp [hx])
    simp [addFilesLoop, Nat.not_lt.mpr he, ih hrest]

theorem addFilesLoop_short (s : List (List Nat)) (e : List Nat) (he : e ∈ s)
    (hlen : e.length < 3) : addFilesLoop s = none := by
  induction s with
  | nil => simp at he
  | cons a rest ih =>
    simp only [addFilesLoop]
    rcases List.mem_cons.mp he with rfl | hmem
    · rw [if_pos hlen]
    · by_cases ha : a.length < 3
      · rw [if_pos ha]
      · rw [if_neg ha, ih hmem]
        rfl

/-- C8: for entry lists whose entries are at least 3 bytes long (shorter
entries panic, see the companion safety property), `AddFiles` appends
the rewritten entries to the existing grant list in call order with no
deduplication; an entry whose last three bytes are `:ro` or `:rw` is
kept unchanged, every other entry gets `:ro` appended; in particular
`/tmp/a` and `/tmp/b:rw` on an empty grant list produce exactly
`/tmp/a:ro` and `/tmp/b:rw`. -/
theorem AddFiles_spec :
    (∀ files s : List (List Nat), (∀ e ∈ s, 3 ≤ e.length) →
      AddFiles files s = some (files ++ s.map addFileSuffix)) ∧
    (∀ e : List Nat,
      e.drop (e.length - 3) = strBytes ":ro" ∨ e.drop (e.length - 3) = strBytes ":rw" →
      addFileSuffix e = e) ∧
    (∀ e : List Nat, e.drop (e.length - 3) ≠ strBytes ":ro" →
      e.drop (e.length - 3) ≠ strBytes ":rw" →
      addFileSuffix e = e ++ strBytes ":ro") ∧
    AddFiles [] [strBytes "/tmp/a", strBytes "/tmp/b:rw"] =
      some [strBytes "/tmp/a:ro", strBytes "/tmp/b:rw"] := by
  refine ⟨?_, ?_, ?_, by decide⟩
  · intro files s h
    rw [AddFiles, addFilesLoop_all s h]
    rfl
  · intro e he
    have hcolon : 58 ∈ e := by
      have h58 : 58 ∈ e.drop (e.length - 3) := by
        rcases he with he | he <;> rw [he] <;> decide
      exact List.mem_of_mem_drop h58
    simp only [addFileSuffix]
    rw [if_neg]
    push_neg
    refine ⟨Nat.not_lt.mp (colon_chunks_ge_two e hcolon), ?_⟩
    intro hne
    rcases he with he | he
    · exact absurd he hne
    · exact he
  · intro e h1 h2
    simp only [addFileSuffix]
    rw [if_pos (Or.inr ⟨h1, h2⟩)]

/-- C8 witness: the first part of the theorem applied to a concrete
entry list on a nonempty existing grant list. -/
theorem AddFiles_spec_witness :
    AddFiles [strBytes "/x:rw"] [strBytes "/data"] =
      some [strBytes "/x:rw", strBytes "/data:ro"] :=
  (AddFiles_spec.1 [strBytes "/x:rw"] [strBytes "/data"] (by decide)).trans (by decide)

/-- C10: the suffix slice in the `AddFiles` loop makes the call panic
(modelled `none`) exactly when some entry is shorter than 3 bytes: any
such entry causes a panic instead of an error return, and when every
entry has at least 3 bytes the call returns normally. -/
theorem AddFiles_short_entry_panics :
    (∀ (files s : List (List Nat)) (e : List Nat), e ∈ s → e.length < 3 →
      AddFiles files s = none) ∧
    (∀ files s : List (List Nat), (∀ e ∈ s, 3 ≤ e.length) →
      AddFiles files s ≠ none) := by
  constructor
  · intro files s e he hlen
    rw [AddFiles, addFilesLoop_short s e he hlen]
    rfl
  · intro files s h
    rw [AddFiles, addFilesLoop_all s h]
    simp

/-- C10 witness: the theorem applied to a concrete two byte entry and to
a concrete safe list. -/
theorem AddFiles_short_entry_panics_witness :
    AddFiles [] [[47, 97]] = none ∧ AddFiles [] [strBytes "/ab"] ≠ none :=
  ⟨AddFiles_short_entry_panics.1 [] [[47, 97]] [47, 97] (by decide) (by decide),
   AddFiles_short_entry_panics.2 [] [strBytes "/ab"] (by decide)⟩
/-! Field extraction lemmas for constructed 64 bit type 2 files. -/

theorem exU_ok (k : Unit → Except GoErr Unit) : exU (.ok ()) k = k () := rfl

theorem exP_ok (a b : Nat) (k : Nat → Nat → Except GoErr Unit) :
    exP (.ok (a, b)) k = k a b := rfl

theorem exIdent_ok (c : Nat) (b : Bool) (k : Nat → Bool → Except GoErr Int) :
    exIdent (.ok (c, b)) k = k c b := rfl

theorem exI_ok (k : Unit → Except GoErr Int) : exI (.ok ()) k = k () := rfl

theorem slice_replicate_left (z q n a : Nat) (X : List Nat) (h : q + n ≤ z) :
    slice (List.replicate z a ++ X) q n = List.replicate n a := by
  unfold slice
  rw [List.drop_append_eq_append_drop]
  simp only [List.drop_replicate, List.length_replicate]
  rw [List.take_append_eq_append_take]
  simp only [List.take_replicate, List.length_replicate]
  have h1 : min n (z - q) = n := by omega
  have h2 : n - (z - q) = 0 := by omega
  rw [h1, h2, List.take_zero, List.append_nil]

theorem decodeLE_zeros (n : Nat) : decodeLE (List.replicate n 0) = 0 := by
  induction n with
  | zero => rfl
  | succ n ih => simp [List.replicate_succ, decodeLE, ih]

theorem readField_zeros (be : Bool) (bs : List Nat) (off n : Nat)
    (h : slice bs off n = List.replicate n 0) : readField be bs off n = 0 := by
  cases be
  · show decodeLE (slice bs off n) = 0
    rw [h]
    exact decodeLE_zeros n
  · show decodeBE (slice bs off n) = 0
    rw [h]
    unfold decodeBE
    rw [List.reverse_replicate]
    exact decodeLE_zeros n

theorem readField_encB (bo : Bool) (bs : List Nat) (off w v : Nat)
    (hs : slice bs off w = encB bo w v) (hv : v < 256 ^ w) :
    readField bo bs off w = v := by
  cases bo
  · show decodeLE (slice bs off w) = v
    rw [hs]
    exact decodeLE_encodeLE w v hv
  · show decodeBE (slice bs off w) = v
    rw [hs]
    exact decodeBE_encodeBE w v hv

theorem firstErr_ok (f : Nat → Except GoErr Unit) (n : Nat)
    (h : ∀ i, i < n → f i = .ok ()) : firstErr f n = .ok () := by
  induction n with
  | zero => rfl
  | succ n ih =>
    unfold firstErr
    rw [ih (fun i hi => h i (by omega)), h n (by omega)]

theorem elfIdent20_length (bo : Bool) : (elfIdent20 bo).length = 20 := by
  cases bo <;> rfl

theorem mk64_length (bo : Bool) (O S N : Nat) (rest : List Nat) :
    (mkElf64 bo O S N rest).length = 64 + (O - 64 + S * N) + rest.length := by
  simp [mkElf64, elfIdent20, encB_length]
  omega

theorem mk64_slice_version (bo : Bool) (O S N : Nat) (rest : List Nat) :
    slice (mkElf64 bo O S N rest) 20 4 = encB bo 4 1 := by
  unfold mkElf64
  rw [slice_append_ge _ _ 20 4 (le_of_eq (elfIdent20_length bo)), elfIdent20_length]
  exact slice_zero_of_length _ _ _ (encB_length bo 4 1)

theorem mk64_slice_phoff (bo : Bool) (O S N : Nat) (rest : List Nat) :
    slice (mkElf64 bo O S N rest) 32 8 = List.replicate 8 0 := by
  unfold mkElf64
  rw [slice_append_ge _ _ 32 8 (by rw [elfIdent20_length]; omega), elfIdent20_length]
  rw [slice_append_ge _ _ _ 8 (by rw [encB_length]; omega), encB_length]
  exact slice_replicate_left 16 _ 8 0 _ (by omega)

theorem mk64_slice_shoff (bo : Bool) (O S N : Nat) (rest : List Nat) :
    slice (mkElf64 bo O S N rest) 40 8 = encB bo 8 O := by
  unfold mkElf64
  rw [slice_append_ge _ _ 40 8 (by rw [elfIdent20_length]; omega), elfIdent20_length]
  rw [slice_append_ge _ _ _ 8 (by rw [encB_length]; omega), encB_length]
  rw [slice_append_ge _ _ _ 8 (by simp), List.length_replicate]
  exact slice_zero_of_length _ _ _ (encB_length bo 8 O)

theorem mk64_slice_phentsize (bo : Bool) (O S N : Nat) (rest : List Nat) :
    slice (mkElf64 bo O S N rest) 54 2 = List.replicate 2 0 := by
  unfold mkElf64
  rw [slice_append_ge _ _ 54 2 (by rw [elfIdent20_length]; omega), elfIdent20_length]
  rw [slice_append_ge _ _ _ 2 (by rw [encB_length]; omega), encB_length]
  rw [slice_append_ge _ _ _ 2 (by simp), List.length_replicate]
  rw [slice_append_ge _ _ _ 2 (by rw [encB_length]; omega), encB_length]
  exact slice_replicate_left 10 _ 2 0 _ (by omega)

theorem mk64_slice_phnum (bo : Bool) (O S N : Nat) (rest : List Nat) :
    slice (mkElf64 bo O S N rest) 56 2 = List.replicate 2 0 := by
  unfold mkElf64
  rw [slice_append_ge _ _ 56 2 (by rw [elfIdent20_length]; omega), elfIdent20_length]
  rw [slice_append_ge _ _ _ 2 (by rw [encB_length]; omega), encB_length]
  rw [slice_append_ge _ _ _ 2 (by simp), List.length_replicate]
  rw [slice_append_ge _ _ _ 2 (by rw [encB_length]; omega), encB_length]
  exact slice_replicate_left 10 _ 2 0 _ (by omega)

theorem mk64_slice_entsize (bo : Bool) (O S N : Nat) (rest : List Nat) :
    slice (mkElf64 bo O S N rest) 58 2 = encB bo 2 S := by
  unfold mkElf64
  rw [slice_append_ge _ _ 58 2 (by rw [elfIdent20_length]; omega), elfIdent20_length]
  rw [slice_append_ge _ _ _ 2 (by rw [encB_length]; omega), encB_length]
  rw [slice_append_ge _ _ _ 2 (by simp), List.length_replicate]
  rw [slice_append_ge _ _ _ 2 (by rw [encB_length]; omega), encB_length]
  rw [slice_append_ge _ _ _ 2 (by simp), List.length_replicate]
  exact slice_zero_of_length _ _ _ (encB_length bo 2 S)

theorem mk64_slice_shnum (bo : Bool) (O S N : Nat) (rest : List Nat) :
    slice (mkElf64 bo O S N rest) 60 2 = encB bo 2 N := by
  unfold mkElf64
  rw [slice_append_ge _ _ 60 2 (by rw [elfIdent20_length]; omega), elfIdent20_length]
  rw [slice_append_ge _ _ _ 2 (by rw [encB_length]; omega), encB_length]
  rw [slice_append_ge _ _ _ 2 (by simp), List.length_replicate]
  rw [slice_append_ge _ _ _ 2 (by rw [encB_length]; omega), encB_length]
  rw [slice_append_ge _ _ _ 2 (by simp), List.length_replicate]
  rw [slice_append_ge _ _ _ 2 (le_of_eq (encB_length bo 2 S)), encB_length]
  exact slice_zero_of_length _ _ _ (encB_length bo 2 N)

theorem mk64_slice_shstrndx (bo : Bool) (O S N : Nat) (rest : List Nat) :
    slice (mkElf64 bo O S N rest) 62 2 = List.replicate 2 0 := by
  unfold mkElf64
  rw [slice_append_ge _ _ 62 2 (by rw [elfIdent20_length]; omega), elfIdent20_length]
  rw [slice_append_ge _ _ _ 2 (by rw [encB_length]; omega), encB_length]
  rw [slice_append_ge _ _ _ 2 (by simp), List.length_replicate]
  rw [slice_append_ge _ _ _ 2 (by rw [encB_length]; omega), encB_length]
  rw [slice_append_ge _ _ _ 2 (by simp), List.length_replicate]
  rw [slice_append_ge _ _ _ 2 (by rw [encB_length]; omega), encB_length]
  rw [slice_append_ge _ _ _ 2 (le_of_eq (encB_length bo 2 N)), encB_length]
  exact slice_zero_of_length _ _ _ rfl

theorem mk64_slice_zeros (bo : Bool) (O S N : Nat) (rest : List Nat) (p n : Nat)
    (hp : 64 ≤ p) (hpn : p - 64 + n ≤ O - 64 + S * N) :
    slice (mkElf64 bo O S N rest) p n = List.replicate n 0 := by
  unfold mkElf64
  rw [slice_append_ge _ _ p n (by rw [elfIdent20_length]; omega), elfIdent20_length]
  rw [slice_append_ge _ _ _ n (by rw [encB_length]; omega), encB_length]
  rw [slice_append_ge _ _ _ n (by simp; omega), List.length_replicate]
  rw [slice_append_ge _ _ _ n (by rw [encB_length]; omega), encB_length]
  rw [slice_append_ge _ _ _ n (by simp; omega), List.length_replicate]
  rw [slice_append_ge _ _ _ n (by rw [encB_length]; omega), encB_length]
  rw [slice_append_ge _ _ _ n (by rw [encB_length]; omega), encB_length]
  rw [slice_append_ge _ _ _ n (by simp; omega),
    show ([0, 0] : List Nat).length = 2 from rfl]
  exact slice_replicate_left (O - 64 + S * N) _ n 0 rest (by omega)

theorem identCheck_mk64 (bo : Bool) (O S N : Nat) (rest : List Nat) :
    elfIdentCheck (mkElf64 bo O S N rest) = .ok (2, bo) := by
  have h : ¬ ((mkElf64 bo O S N rest).length < 16) := by rw [mk64_length]; omega
  unfold elfIdentCheck
  rw [if_neg h]
  cases bo <;> rfl

theorem detect_mk64 (bo : Bool) (O S N : Nat) (rest : List Nat) :
    GetAppImageType (mkElf64 bo O S N rest) = .ok 2 := by
  cases bo <;> rfl

theorem sectEntryOk_mk64 (bo : Bool) (O S N : Nat) (rest : List Nat) (i : Nat)
    (hO : 64 ≤ O) (hS : 64 ≤ S) (hi : i < N) :
    sectEntryOk bo true (mkElf64 bo O S N rest) (O + i * S) = .ok () := by
  have hiS : (i + 1) * S ≤ N * S := Nat.mul_le_mul_right S (by omega)
  have hms : i * S + S = (i + 1) * S := by ring
  have hcm : S * N = N * S := Nat.mul_comm S N
  have hb : O + i * S + 64 ≤ O + S * N := by omega
  have hlen : (mkElf64 bo O S N rest).length = 64 + (O - 64 + S * N) + rest.length :=
    mk64_length bo O S N rest
  have hz1 : readField bo (mkElf64 bo O S N rest) (O + i * S + 24) 8 = 0 :=
    readField_zeros _ _ _ _ (mk64_slice_zeros bo O S N rest _ 8 (by omega) (by omega))
  have hz2 : readField bo (mkElf64 bo O S N rest) (O + i * S + 32) 8 = 0 :=
    readField_zeros _ _ _ _ (mk64_slice_zeros bo O S N rest _ 8 (by omega) (by omega))
  have hz3 : readField bo (mkElf64 bo O S N rest) (O + i * S + 8) 8 = 0 :=
    readField_zeros _ _ _ _ (mk64_slice_zeros bo O S N rest _ 8 (by omega) (by omega))
  unfold sectEntryOk
  rw [if_pos rfl, if_neg (by rw [hlen]; omega), hz1, hz2, hz3]
  norm_num

theorem newFileRest_mk64 (bo : Bool) (O S N : Nat) (rest : List Nat)
    (hO : 64 ≤ O) (hS : 64 ≤ S) (hN : 1 ≤ N)
    (hS16 : S < 2 ^ 16) (hN16 : N < 2 ^ 16) (hfit : O + S * N < 2 ^ 63) :
    newFileRest (mkElf64 bo O S N rest) 2 bo = .ok () := by
  have h2564 : (256 : Nat) ^ 4 = 2 ^ 32 := by norm_num
  have h2568 : (256 : Nat) ^ 8 = 2 ^ 64 := by norm_num
  have h2562 : (256 : Nat) ^ 2 = 2 ^ 16 := by norm_num
  have hlen : (mkElf64 bo O S N rest).length = 64 + (O - 64 + S * N) + rest.length :=
    mk64_length bo O S N rest
  have hv : readField bo (mkElf64 bo O S N rest) 20 4 = 1 :=
    readField_encB bo _ 20 4 1 (mk64_slice_version bo O S N rest) (by omega)
  have hpho : readField bo (mkElf64 bo O S N rest) 32 8 = 0 :=
    readField_zeros _ _ _ _ (mk64_slice_phoff bo O S N rest)
  have hsho : readField bo (mkElf64 bo O S N rest) 40 8 = O :=
    readField_encB bo _ 40 8 O (mk64_slice_shoff bo O S N rest) (by omega)
  have hphes : readField bo (mkElf64 bo O S N rest) 54 2 = 0 :=
    readField_zeros _ _ _ _ (mk64_slice_phentsize bo O S N rest)
  have hphn : readField bo (mkElf64 bo O S N rest) 56 2 = 0 :=
    readField_zeros _ _ _ _ (mk64_slice_phnum bo O S N rest)
  have hshes : readField bo (mkElf64 bo O S N rest) 58 2 = S :=
    readField_encB bo _ 58 2 S (mk64_slice_entsize bo O S N rest) (by omega)
  have hshn : readField bo (mkElf64 bo O S N rest) 60 2 = N :=
    readField_encB bo _ 60 2 N (mk64_slice_shnum bo O S N rest) (by omega)
  have hstr : readField bo (mkElf64 bo O S N rest) 62 2 = 0 :=
    readField_zeros _ _ _ _ (mk64_slice_shstrndx bo O S N rest)
  have hfe0 : ∀ f : Nat → Except GoErr Unit, firstErr f 0 = Except.ok () := fun f => rfl
  unfold newFileRest
  norm_num [hv, hpho, hsho, hphes, hphn, hshes, hshn, hstr, hlen, hfe0, exU_ok, exP_ok]
  rw [if_neg (by omega)]
  rw [if_neg (by omega)]
  rw [if_neg (by omega)]
  rw [if_neg (by omega)]
  rw [if_neg (by omega)]
  simp only [exP_ok]
  rw [if_neg (by omega)]
  rw [firstErr_ok (fun i => sectEntryOk bo true (mkElf64 bo O S N rest) (O + i * S)) N
    (fun i hi => sectEntryOk_mk64 bo O S N rest i hO hS hi)]
  simp only [exU_ok]
  unfold strtabCheck
  rw [if_pos rfl]

theorem getElfSize_of_checks (bs : List Nat) (cls : Nat) (be : Bool)
    (h1 : elfIdentCheck bs = .ok (cls, be)) (h2 : newFileRest bs cls be = .ok ()) :
    getElfSize bs =
      (if cls = 2 then
        (if bs.length < 64 then .error .truncatedHeader
         else .ok (wrap64 (toInt64 (readField be bs 40 8) +
           ((readField be bs 58 2 : Int) * (readField be bs 60 2 : Int)))))
       else if cls = 1 then
        (if bs.length < 52 then .error .truncatedHeader
         else .ok (wrap64 ((readField be bs 32 4 : Int) +
           ((readField be bs 46 2 : Int) * (readField be bs 48 2 : Int)))))
       else .ok 0) := by
  unfold getElfSize
  rw [h1, exIdent_ok]
  simp only []
  rw [h2, exI_ok]

theorem GetOffset_of_type (bs : List Nat) (fmt : Int)
    (h : GetAppImageType bs = .ok fmt) :
    GetOffset bs =
      (if fmt = -2 then getShappImageSize (toLines bs)
       else if fmt = 2 then getElfSize bs
       else if fmt = 0 then .error .missingAI02
       else .error .unsupportedAppImage) := by
  unfold GetOffset
  rw [h]

theorem getElfSize_mk64 (bo : Bool) (O S N : Nat) (rest : List Nat)
    (hO : 64 ≤ O) (hS : 64 ≤ S) (hN : 1 ≤ N)
    (hS16 : S < 2 ^ 16) (hN16 : N < 2 ^ 16) (hfit : O + S * N < 2 ^ 63) :
    getElfSize (mkElf64 bo O S N rest) = .ok ((O : Int) + (S : Int) * (N : Int)) := by
  have h2568 : (256 : Nat) ^ 8 = 2 ^ 64 := by norm_num
  have h2562 : (256 : Nat) ^ 2 = 2 ^ 16 := by norm_num
  have hlen : ¬ ((mkElf64 bo O S N rest).length < 64) := by rw [mk64_length]; omega
  rw [getElfSize_of_checks _ 2 bo (identCheck_mk64 bo O S N rest)
    (newFileRest_mk64 bo O S N rest hO hS hN hS16 hN16 hfit)]
  rw [if_pos rfl, if_neg hlen]
  rw [readField_encB bo _ 40 8 O (mk64_slice_shoff bo O S N rest) (by omega),
    readField_encB bo _ 58 2 S (mk64_slice_entsize bo O S N rest) (by omega),
    readField_encB bo _ 60 2 N (mk64_slice_shnum bo O S N rest) (by omega)]
  have ht : toInt64 O = (O : Int) := by
    unfold toInt64
    rw [if_pos (by omega : O < 2 ^ 63)]
  rw [ht]
  have hz1 : (0 : Int) ≤ (O : Int) + (S : Int) * (N : Int) + 2 ^ 63 := by positivity
  have hz2 : (O : Int) + (S : Int) * (N : Int) + 2 ^ 63 < 2 ^ 64 := by
    have : ((O + S * N : Nat) : Int) < 2 ^ 63 := by exact_mod_cast hfit
    push_cast at this
    omega
  unfold wrap64
  rw [Int.emod_eq_of_lt hz1 hz2]
  ring_nf

/-- C1: for every well formed 64 bit type 2 container file, in either
declared byte order, whose ELF header declares section header table
offset `O`, entry size `S` and count `N`, offset resolution through
`GetOffset` returns exactly `O + S * N`.  Well formed means what
`debug/elf.NewFile` accepts, realized by the `mkElf64` family: the
version field matches the ident, the table lies inside the file at
offset `O` (hence `64 ≤ O`), the entry size is at least the
`Section64` size 64 that `NewFile` requires, there is at least one
section, and the result fits the Go int range. -/
theorem GetOffset_type2_elf64 (bo : Bool) (O S N : Nat) (rest : List Nat)
    (hO : 64 ≤ O) (hS : 64 ≤ S) (hN : 1 ≤ N)
    (hS16 : S < 2 ^ 16) (hN16 : N < 2 ^ 16) (hfit : O + S * N < 2 ^ 63) :
    GetOffset (mkElf64 bo O S N rest) = .ok ((O : Int) + (S : Int) * (N : Int)) := by
  rw [GetOffset_of_type _ 2 (detect_mk64 bo O S N rest)]
  rw [if_neg (by norm_num : ¬ ((2 : Int) = -2)), if_pos rfl]
  exact getElfSize_mk64 bo O S N rest hO hS hN hS16 hN16 hfit

/-- C1 witness: the theorem applied to a little endian file declaring
offset 4096, entry size 64 and count 10, with payload, giving 4736. -/
theorem GetOffset_type2_elf64_witness :
    GetOffset (mkElf64 false 4096 64 10 [1, 2, 3]) = .ok 4736 := by
  have h := GetOffset_type2_elf64 false 4096 64 10 [1, 2, 3]
    (by norm_num) (by norm_num) (by norm_num) (by norm_num) (by norm_num) (by norm_num)
  rw [h]
  norm_num

end aisap
